import Mathlib

/-!
Shallow embedding of the KokoAI RSS summarizer (src/main.py).

Modelling choices, each tied to a line of the source:

* An XML element (lxml) is a record with an optional text payload, since
  lxml reports the text of an empty element as `None`.  An `Item` carries
  the four sub-elements the code looks up: `pubDate` (`item.find("pubDate")`),
  `title` / `link` (`item.findtext(..., "")`), and the namespaced
  `content:encoded` element (`item.find("content:encoded", namespaces)`).
* Instants are integers (seconds since the epoch).  `datetime.now().date()`
  (main.py line 97) is the *local* calendar day, i.e. the floor of
  `(now + off) / 86400` where `off` is the local UTC offset in seconds;
  `parsedate_to_datetime(s).astimezone(timezone.utc).date()` (line 110) is the
  floor of `instant / 86400`, since converting an aware datetime to UTC does
  not move the instant.  RFC-2822 date parsing itself is an oracle
  `parseDate : String → Option Int` returning the instant, `none` meaning the
  call raised (caught at lines 113-115 and turned into a skip).
* Fallible Python code is `Except Unit`: `Except.error ()` is an uncaught
  exception.  `exit(1)` and process crashes are distinguished in `Outcome`.
* The run (`main`, lines 130-165) is a pure function from a `World` of
  oracles (file system, network, Ollama, Slack) to an `Outcome` paired with
  the trace of externally visible calls, in order.
-/

deriving instance DecidableEq for Except

/-- An lxml element: its `.text` is `none` for an empty element. -/
structure Elem where
  text : Option String
deriving DecidableEq

/-- One `<item>` of a feed document, restricted to the four sub-elements
`get_feed_content` reads.  A `none` field means the sub-element is absent. -/
structure Item where
  pubDate : Option Elem
  title : Option Elem
  link : Option Elem
  contentEncoded : Option Elem
deriving DecidableEq

/-- The Article triple appended at main.py line 123. -/
structure Article where
  title : String
  link : String
  content : String
deriving DecidableEq

/-- Drop leading whitespace characters from a character list. -/
def dropSpace : List Char → List Char
  | [] => []
  | c :: cs => if c.isWhitespace then dropSpace cs else c :: cs

/-- Python `str.strip()`: remove leading and trailing whitespace. -/
def strip (s : String) : String :=
  String.mk (List.reverse (dropSpace (List.reverse (dropSpace s.data))))

/-- `item.findtext(tag, "")`: the element text, with `""` both when the
element is absent (the explicit default) and when its text is `None`
(lxml returns `elem.text or ""`). -/
def findtext (e : Option Elem) : String :=
  match e with
  | none => ""
  | some el => el.text.getD ""

/-- The UTC calendar day of an instant: `.astimezone(timezone.utc).date()`. -/
def utcDay (t : Int) : Int := Int.fdiv t 86400

/-- `datetime.now().date()` (main.py line 97): the local calendar day at the
run instant `now` under local UTC offset `off` (seconds). -/
def localToday (now off : Int) : Int := utcDay (now + off)

/-- The per-item body of the loop at main.py lines 106-123.
`Except.ok none` = item skipped (no `pubDate`, unparsable date, wrong day, or
a blank field); `Except.ok (some a)` = article appended; `Except.error ()` =
the uncaught `AttributeError` from `content_elem.text.strip()` when the
`content:encoded` element is present but has no text (line 120). -/
def processItem (parseDate : String → Option Int) (today : Int) (it : Item) :
    Except Unit (Option Article) :=
  match it.pubDate with
  | none => Except.ok none
  | some pe =>
    match pe.text.bind parseDate with
    | none => Except.ok none
    | some p =>
      if utcDay p = today then
        let title := strip (findtext it.title)
        let link := strip (findtext it.link)
        match it.contentEncoded with
        | none =>
          Except.ok none
        | some ce =>
          match ce.text with
          | none => Except.error ()
          | some s =>
            let content := strip s
            if title ≠ "" ∧ link ≠ "" ∧ content ≠ "" then
              Except.ok (some ⟨title, link, content⟩)
            else Except.ok none
      else Except.ok none

/-- The item loop of `get_feed_content`, collecting articles in document
order and propagating the uncaught exception. -/
def collectItems (parseDate : String → Option Int) (today : Int) :
    List Item → Except Unit (List Article)
  | [] => Except.ok []
  | it :: rest =>
    match processItem parseDate today it with
    | Except.error e => Except.error e
    | Except.ok none => collectItems parseDate today rest
    | Except.ok (some a) =>
      match collectItems parseDate today rest with
      | Except.error e => Except.error e
      | Except.ok arts => Except.ok (a :: arts)

/-- `get_feed_content` (main.py lines 94-128).  The already-fetched document
is `Except.error ()` when `etree.parse` raises `XMLSyntaxError` (caught at
lines 102-104, returning `[]`) and `Except.ok items` otherwise. -/
def get_feed_content (parseDate : String → Option Int) (now off : Int)
    (doc : Except Unit (List Item)) : Except Unit (List Article) :=
  match doc with
  | Except.error _ => Except.ok []
  | Except.ok items => collectItems parseDate (localToday now off) items

/-- `get_feed_list` (main.py lines 71-80).  The configuration source is
`none` when `feeds.txt` is absent (`FileNotFoundError` → `exit(1)`, modelled
as `Except.error ()`), otherwise the list of its lines.  Line 74 keeps each
line whose `strip()` is truthy, stripped. -/
def get_feed_list (file : Option (List String)) : Except Unit (List String) :=
  match file with
  | none => Except.error ()
  | some lines => Except.ok ((lines.filter (fun l => strip l != "")).map strip)

/-- The world of external oracles `main` interacts with. -/
structure World where
  /-- Lines of `feeds.txt`; `none` = file absent. -/
  feedsFile : Option (List String)
  /-- `client.ps()` at main.py line 15 succeeds. -/
  connectOk : Bool
  /-- `pull` / `create` / `show` at lines 25-27 succeed. -/
  modelOk : Bool
  /-- `email.utils.parsedate_to_datetime`, as an instant; `none` = raises. -/
  parseDate : String → Option Int
  /-- Run instant (seconds since epoch, UTC). -/
  now : Int
  /-- Local UTC offset in seconds. -/
  off : Int
  /-- `save_feed_raw url` followed by parsing the saved file: outer `none` =
  `requests.RequestException` (caught, returns `None` at line 92); inner
  `Except.error ()` = `XMLSyntaxError`; otherwise the document's items. -/
  fetch : String → Option (Except Unit (List Item))
  /-- `client.generate` on an article body; `none` = raises (→ `exit(1)`
  at line 39). -/
  summarize : String → Option String
  /-- `SLACK_API_TOKEN` environment variable. -/
  slackToken : Option String

/-- Externally visible calls, in program order. -/
inductive Event where
  /-- `ai_connect`: the `client.ps()` attempt (line 15). -/
  | connect
  /-- `ai_model`: the pull/create/show attempt (lines 25-27). -/
  | initModel
  /-- `save_feed_raw url`: the `requests.get` attempt (line 84). -/
  | fetchAttempt (url : String)
  /-- `ai_summary`: the `client.generate` attempt (line 35). -/
  | summarizeCall (content : String)
  /-- The `SLACK_API_TOKEN` lookup at line 42. -/
  | tokenCheck
  /-- The `chat_postMessage` attempt (lines 48-63). -/
  | notifyCall (title body link : String)
deriving DecidableEq

/-- Process outcome: normal return, `exit(1)`, or death by uncaught
exception. -/
inductive Outcome where
  | success
  | exitFail
  | crash
deriving DecidableEq

/-- Result of a partial run: either it continued (with its trace) or it
stopped the whole process (with outcome and trace so far). -/
inductive StepRes where
  | cont (events : List Event)
  | halt (outcome : Outcome) (events : List Event)
deriving DecidableEq

/-- Prefix a trace onto a partial-run result. -/
def prependRes (es : List Event) : StepRes → StepRes
  | StepRes.cont es2 => StepRes.cont (es ++ es2)
  | StepRes.halt o es2 => StepRes.halt o (es ++ es2)

/-- The trace of the summarize-then-notify pair one article generates when
both succeed (main.py lines 163-165 with `send_slack_message` inlined). -/
def articleEvents (w : World) (a : Article) : List Event :=
  [Event.summarizeCall a.content, Event.tokenCheck,
   Event.notifyCall a.title ((w.summarize a.content).getD "") a.link]

/-- The inner article loop (main.py lines 163-165): `ai_summary` then
`send_slack_message` per article.  `ai_summary` failure and a missing Slack
token both `exit(1)`; a failed or not-ok `chat_postMessage` is only logged
(lines 64-69), so the loop continues regardless of delivery. -/
def runArticles (w : World) : List Article → StepRes
  | [] => StepRes.cont []
  | a :: rest =>
    match w.summarize a.content with
    | none => StepRes.halt Outcome.exitFail [Event.summarizeCall a.content]
    | some s =>
      match w.slackToken with
      | none => StepRes.halt Outcome.exitFail [Event.summarizeCall a.content, Event.tokenCheck]
      | some _ =>
        prependRes [Event.summarizeCall a.content, Event.tokenCheck,
          Event.notifyCall a.title s a.link] (runArticles w rest)

/-- The outer feed loop (main.py lines 152-165): fetch, parse, then the
article loop; a failed fetch or an empty article list just moves on. -/
def runFeeds (w : World) : List String → StepRes
  | [] => StepRes.cont []
  | url :: rest =>
    match w.fetch url with
    | none => prependRes [Event.fetchAttempt url] (runFeeds w rest)
    | some doc =>
      match get_feed_content w.parseDate w.now w.off doc with
      | Except.error _ => StepRes.halt Outcome.crash [Event.fetchAttempt url]
      | Except.ok arts =>
        match runArticles w arts with
        | StepRes.cont es => prependRes (Event.fetchAttempt url :: es) (runFeeds w rest)
        | StepRes.halt o es => StepRes.halt o (Event.fetchAttempt url :: es)

/-- `main` (main.py lines 130-165): load the feed list (absent file →
`exit(1)`), return early on an empty list, connect to Ollama, initialize the
model, then run the feed loop. -/
def runMain (w : World) : Outcome × List Event :=
  match get_feed_list w.feedsFile with
  | Except.error _ => (Outcome.exitFail, [])
  | Except.ok urls =>
    if urls = [] then (Outcome.success, [])
    else if w.connectOk = false then (Outcome.exitFail, [Event.connect])
    else if w.modelOk = false then (Outcome.exitFail, [Event.connect, Event.initModel])
    else
      match runFeeds w urls with
      | StepRes.cont es => (Outcome.success, Event.connect :: Event.initModel :: es)
      | StepRes.halt o es => (o, Event.connect :: Event.initModel :: es)

/-- Spec-side selection, following the amended claim C1: an item yields an
Article exactly when it has a parsable publication date whose UTC calendar
day equals `today`, and its trimmed title, link and encoded content are all
non-empty. -/
def specSelects (parseDate : String → Option Int) (today : Int) (it : Item) :
    Option Article :=
  match it.pubDate.bind (fun pe => pe.text.bind parseDate) with
  | none => none
  | some p =>
    if utcDay p = today then
      let t := strip (findtext it.title)
      let l := strip (findtext it.link)
      let c := strip ((it.contentEncoded.bind Elem.text).getD "")
      if t ≠ "" ∧ l ≠ "" ∧ c ≠ "" then some ⟨t, l, c⟩ else none
    else none

/-- Spec-side article list: the items selected by `specSelects`, in
document order. -/
def specArticles (parseDate : String → Option Int) (today : Int) :
    List Item → List Article
  | [] => []
  | it :: rest =>
    match specSelects parseDate today it with
    | none => specArticles parseDate today rest
    | some a => a :: specArticles parseDate today rest

/-- Events of a list of articles that all summarize and deliver. -/
def eventsOfArticles (w : World) : List Article → List Event
  | [] => []
  | a :: rest => articleEvents w a ++ eventsOfArticles w rest

/-- The events recorded in a partial-run result. -/
def resEvents : StepRes → List Event
  | StepRes.cont es => es
  | StepRes.halt _ es => es

/-- Recognizes a fetch attempt in a trace. -/
def isFetchEvent : Event → Bool
  | Event.fetchAttempt _ => true
  | _ => false

/-- Date oracle for the C1 instances: only the string "DA" parses, to the
instant 84000 (23:20 UTC of day 0). -/
def pdC1 : String → Option Int := fun s => if s = "DA" then some 84000 else none

/-- A fully populated item published at instant 84000. -/
def itC1 : Item :=
  ⟨some ⟨some "DA"⟩, some ⟨some "TA"⟩, some ⟨some "LA"⟩, some ⟨some "CA"⟩⟩

/-- The single today-article of the C2 world. -/
def aC2 : Article := ⟨"T1", "L1", "B1"⟩

/-- A fully populated item whose date string "DT" parses to instant 100. -/
def itC2 : Item :=
  ⟨some ⟨some "DT"⟩, some ⟨some "T1"⟩, some ⟨some "L1"⟩, some ⟨some "B1"⟩⟩

/-- World for C2: one feed with one today-article, summarization always
raising, Slack token present. -/
def wC2 : World :=
  ⟨some ["u1"], true, true, fun s => if s = "DT" then some 100 else none, 100, 0,
   fun u => if u = "u1" then some (Except.ok [itC2]) else none,
   fun _ => none, some "tk"⟩

/-- World for the C3 counterexample: Slack token absent, one feed whose
fetch fails, so no notification is ever attempted. -/
def wC3 : World :=
  ⟨some ["u"], true, true, fun _ => none, 0, 0, fun _ => none, fun _ => none, none⟩

/-- World for the C3 witness: one feed with one today-article, summarization
succeeding, Slack token absent. -/
def wC3b : World :=
  ⟨some ["u1"], true, true, fun s => if s = "DT" then some 100 else none, 100, 0,
   fun u => if u = "u1" then some (Except.ok [itC2]) else none,
   fun c => if c = "B1" then some "S1" else none, none⟩

/-- Date oracle for C4: "D4" parses to instant 0. -/
def pdC4 : String → Option Int := fun s => if s = "D4" then some 0 else none

/-- An item dated today whose `content:encoded` element is present but has
no text (`<content:encoded/>`, lxml text `None`). -/
def itC4 : Item := ⟨some ⟨some "D4"⟩, some ⟨some "T4"⟩, some ⟨some "L4"⟩, some ⟨none⟩⟩

/-- World for C4: everything healthy except that the only feed contains
`itC4`. -/
def wC4 : World :=
  ⟨some ["u"], true, true, pdC4, 0, 0,
   fun u => if u = "u" then some (Except.ok [itC4]) else none,
   fun _ => some "S", some "tk"⟩

/-- World for C5: every fetch fails at transport level. -/
def wC5 : World :=
  ⟨some ["a", "b"], true, true, fun _ => none, 0, 0, fun _ => none,
   fun _ => none, some "tk"⟩

/-- World for C6: every fetched document fails XML parsing. -/
def wC6 : World :=
  ⟨some ["a"], true, true, fun _ => none, 0, 0, fun _ => some (Except.error ()),
   fun _ => none, some "tk"⟩

/-- Date oracle for C7: "DT" parses to instant 172900 (calendar day 2),
"DY" to instant 86500 (calendar day 1). -/
def pdC7 : String → Option Int :=
  fun s => if s = "DT" then some 172900 else if s = "DY" then some 86500 else none

/-- C7 scenario: the today item of URL1. -/
def itT7 : Item :=
  ⟨some ⟨some "DT"⟩, some ⟨some "T1"⟩, some ⟨some "L1"⟩, some ⟨some "B1"⟩⟩

/-- C7 scenario: the yesterday item of URL1. -/
def itY7 : Item :=
  ⟨some ⟨some "DY"⟩, some ⟨some "T2"⟩, some ⟨some "L2"⟩, some ⟨some "B2"⟩⟩

/-- C7 scenario: the article extracted from URL1. -/
def aC7 : Article := ⟨"T1", "L1", "B1"⟩

/-- C7 scenario world: URL1 yields one today item and one yesterday item,
URL2 fails to fetch, summarization and Slack are healthy. -/
def wC7 : World :=
  ⟨some ["u1", "u2"], true, true, pdC7, 172900, 0,
   fun u => if u = "u1" then some (Except.ok [itT7, itY7]) else none,
   fun c => if c = "B1" then some "S1" else none, some "tk"⟩

/-- World for C8: `feeds.txt` exists but holds only blank lines. -/
def wC8 : World :=
  ⟨some ["", "  "], true, true, fun _ => none, 0, 0, fun _ => none,
   fun _ => none, none⟩

/-- World for C9: duplicate feed line, every fetch failing. -/
def wC9 : World :=
  ⟨some ["u", "u"], true, true, fun _ => none, 0, 0, fun _ => none,
   fun _ => none, none⟩

/-- World for C10: `feeds.txt` exists and is empty. -/
def wC10 : World :=
  ⟨some [], true, true, fun _ => none, 0, 0, fun _ => none, fun _ => none, none⟩

lemma prependRes_nil (r : StepRes) : prependRes [] r = r := by
  cases r <;> simp [prependRes]

lemma prependRes_prependRes (es1 es2 : List Event) (r : StepRes) :
    prependRes es1 (prependRes es2 r) = prependRes (es1 ++ es2) r := by
  cases r <;> simp [prependRes]

lemma resEvents_prependRes (es : List Event) (r : StepRes) :
    resEvents (prependRes es r) = es ++ resEvents r := by
  cases r <;> simp [prependRes, resEvents]

lemma runArticles_cons_ok (w : World) (a : Article) (rest : List Article) (s tk : String)
    (hs : w.summarize a.content = some s) (ht : w.slackToken = some tk) :
    runArticles w (a :: rest) = prependRes (articleEvents w a) (runArticles w rest) := by
  simp [runArticles, hs, ht, articleEvents]

lemma runArticles_ok (w : World) (arts : List Article)
    (hok : ∀ a ∈ arts, (w.summarize a.content).isSome) (ht : w.slackToken.isSome) :
    runArticles w arts = StepRes.cont (eventsOfArticles w arts) := by
  induction arts with
  | nil => rfl
  | cons a rest ih =>
    obtain ⟨s, hs⟩ := Option.isSome_iff_exists.mp (hok a (by simp))
    obtain ⟨tk, htk⟩ := Option.isSome_iff_exists.mp ht
    rw [runArticles_cons_ok w a rest s tk hs htk, ih (fun b hb => hok b (by simp [hb]))]
    simp [prependRes, eventsOfArticles]

lemma runArticles_fail (w : World) (pre : List Article) (a : Article) (post : List Article)
    (hok : ∀ b ∈ pre, (w.summarize b.content).isSome) (ht : w.slackToken.isSome)
    (hf : w.summarize a.content = none) :
    runArticles w (pre ++ a :: post) =
      StepRes.halt Outcome.exitFail
        (eventsOfArticles w pre ++ [Event.summarizeCall a.content]) := by
  induction pre with
  | nil => simp [runArticles, hf, eventsOfArticles]
  | cons b rest ih =>
    obtain ⟨s, hs⟩ := Option.isSome_iff_exists.mp (hok b (by simp))
    obtain ⟨tk, htk⟩ := Option.isSome_iff_exists.mp ht
    rw [List.cons_append, runArticles_cons_ok w b _ s tk hs htk,
      ih (fun c hc => hok c (by simp [hc]))]
    simp [prependRes, eventsOfArticles]

lemma runFeeds_cons_none (w : World) (url : String) (rest : List String)
    (hf : w.fetch url = none) :
    runFeeds w (url :: rest) = prependRes [Event.fetchAttempt url] (runFeeds w rest) := by
  simp [runFeeds, hf]

lemma runFeeds_cons_crash (w : World) (url : String) (rest : List String)
    (doc : Except Unit (List Item)) (hf : w.fetch url = some doc)
    (hg : get_feed_content w.parseDate w.now w.off doc = Except.error ()) :
    runFeeds w (url :: rest) = StepRes.halt Outcome.crash [Event.fetchAttempt url] := by
  simp [runFeeds, hf, hg]

lemma runFeeds_cons_doc (w : World) (url : String) (rest : List String)
    (doc : Except Unit (List Item)) (arts : List Article) (es1 : List Event)
    (hf : w.fetch url = some doc)
    (hg : get_feed_content w.parseDate w.now w.off doc = Except.ok arts)
    (ha : runArticles w arts = StepRes.cont es1) :
    runFeeds w (url :: rest) =
      prependRes (Event.fetchAttempt url :: es1) (runFeeds w rest) := by
  simp [runFeeds, hf, hg, ha]

lemma runFeeds_cons_doc_halt (w : World) (url : String) (rest : List String)
    (doc : Except Unit (List Item)) (arts : List Article) (o : Outcome) (es1 : List Event)
    (hf : w.fetch url = some doc)
    (hg : get_feed_content w.parseDate w.now w.off doc = Except.ok arts)
    (ha : runArticles w arts = StepRes.halt o es1) :
    runFeeds w (url :: rest) = StepRes.halt o (Event.fetchAttempt url :: es1) := by
  simp [runFeeds, hf, hg, ha]

lemma runFeeds_append_cont (w : World) (xs ys : List String) (es : List Event)
    (h : runFeeds w xs = StepRes.cont es) :
    runFeeds w (xs ++ ys) = prependRes es (runFeeds w ys) := by
  induction xs generalizing es with
  | nil =>
    have h2 : StepRes.cont ([] : List Event) = StepRes.cont es := h
    injection h2 with h3
    subst h3
    simp [prependRes_nil]
  | cons url rest ih =>
    cases hf : w.fetch url with
    | none =>
      rw [runFeeds_cons_none w url rest hf] at h
      cases hr : runFeeds w rest with
      | cont es2 =>
        rw [hr] at h
        simp only [prependRes, StepRes.cont.injEq] at h
        subst h
        rw [List.cons_append, runFeeds_cons_none w url (rest ++ ys) hf, ih es2 hr,
          prependRes_prependRes]
      | halt o es2 =>
        rw [hr] at h
        simp [prependRes] at h
    | some doc =>
      cases hg : get_feed_content w.parseDate w.now w.off doc with
      | error e =>
        cases e
        rw [runFeeds_cons_crash w url rest doc hf hg] at h
        simp at h
      | ok arts =>
        cases ha : runArticles w arts with
        | cont es1 =>
          rw [runFeeds_cons_doc w url rest doc arts es1 hf hg ha] at h
          cases hr : runFeeds w rest with
          | cont es2 =>
            rw [hr] at h
            simp only [prependRes, StepRes.cont.injEq] at h
            subst h
            rw [List.cons_append, runFeeds_cons_doc w url (rest ++ ys) doc arts es1 hf hg ha,
              ih es2 hr, prependRes_prependRes]
          | halt o es2 =>
            rw [hr] at h
            simp [prependRes] at h
        | halt o es1 =>
          rw [runFeeds_cons_doc_halt w url rest doc arts o es1 hf hg ha] at h
          simp at h

lemma runArticles_events_no_fetch (w : World) (arts : List Article) :
    (resEvents (runArticles w arts)).filter isFetchEvent = [] := by
  induction arts with
  | nil => rfl
  | cons a rest ih =>
    simp only [runArticles]
    cases w.summarize a.content with
    | none => simp [resEvents, isFetchEvent]
    | some s =>
      cases w.slackToken with
      | none => simp [resEvents, isFetchEvent]
      | some tk =>
        rw [resEvents_prependRes, List.filter_append, ih]
        simp [isFetchEvent]

lemma runFeeds_cont_fetches (w : World) (urls : List String) (es : List Event)
    (h : runFeeds w urls = StepRes.cont es) :
    es.filter isFetchEvent = urls.map Event.fetchAttempt := by
  induction urls generalizing es with
  | nil =>
    have h2 : StepRes.cont ([] : List Event) = StepRes.cont es := h
    injection h2 with h3
    subst h3
    rfl
  | cons url rest ih =>
    cases hf : w.fetch url with
    | none =>
      rw [runFeeds_cons_none w url rest hf] at h
      cases hr : runFeeds w rest with
      | cont es2 =>
        rw [hr] at h
        simp only [prependRes, StepRes.cont.injEq] at h
        subst h
        simp [isFetchEvent, ih es2 hr]
      | halt o es2 =>
        rw [hr] at h
        simp [prependRes] at h
    | some doc =>
      cases hg : get_feed_content w.parseDate w.now w.off doc with
      | error e =>
        cases e
        rw [runFeeds_cons_crash w url rest doc hf hg] at h
        simp at h
      | ok arts =>
        cases ha : runArticles w arts with
        | cont es1 =>
          rw [runFeeds_cons_doc w url rest doc arts es1 hf hg ha] at h
          cases hr : runFeeds w rest with
          | cont es2 =>
            rw [hr] at h
            simp only [prependRes, StepRes.cont.injEq] at h
            subst h
            have hna : es1.filter isFetchEvent = [] := by
              have h4 := runArticles_events_no_fetch w arts
              rw [ha] at h4
              simpa [resEvents] using h4
            simp [List.filter_append, isFetchEvent, hna, ih es2 hr]
          | halt o es2 =>
            rw [hr] at h
            simp [prependRes] at h
        | halt o es1 =>
          rw [runFeeds_cons_doc_halt w url rest doc arts o es1 hf hg ha] at h
          simp at h

lemma processItem_spec (pd : String → Option Int) (today : Int) (it : Item)
    (r : Option Article) (h : processItem pd today it = Except.ok r) :
    r = specSelects pd today it := by
  have hs0 : strip "" = "" := rfl
  unfold processItem at h
  unfold specSelects
  repeat' split at h
  all_goals try (rw [← apply_ite Except.ok] at h)
  all_goals simp_all [Option.bind]
lemma collectItems_spec (pd : String → Option Int) (today : Int) (items : List Item)
    (arts : List Article) (h : collectItems pd today items = Except.ok arts) :
    arts = specArticles pd today items := by
  induction items generalizing arts with
  | nil =>
    simp only [collectItems, Except.ok.injEq] at h
    subst h
    rfl
  | cons it rest ih =>
    simp only [collectItems] at h
    cases hp : processItem pd today it with
    | error e =>
      rw [hp] at h
      simp at h
    | ok r =>
      rw [hp] at h
      have hr := processItem_spec pd today it r hp
      cases r with
      | none =>
        simp only [specArticles, ← hr]
        exact ih arts h
      | some a =>
        cases hc : collectItems pd today rest with
        | error e =>
          rw [hc] at h
          simp at h
        | ok arts2 =>
          rw [hc] at h
          simp only [Except.ok.injEq] at h
          subst h
          simp only [specArticles, ← hr]
          rw [ih arts2 hc]

lemma stripLines_filterMap (lines : List String) :
    (lines.filter (fun l => strip l != "")).map strip =
      lines.filterMap (fun l => if strip l = "" then none else some (strip l)) := by
  induction lines with
  | nil => rfl
  | cons l rest ih =>
    by_cases hl : strip l = ""
    · simp [List.filter_cons, List.filterMap_cons, hl, ih]
    · simp [List.filter_cons, List.filterMap_cons, hl, ih]

/-- C1 (counterexample): an item with a parsable publication date whose UTC
calendar day equals the current UTC calendar day (both instants 84000 and
84600 fall on UTC day 0) and non-empty trimmed title, link and content is
nevertheless excluded when the local offset is +1h, because line 97 computes
"today" from the local clock (local day 1 at instant 84600 under offset
3600). -/
theorem C1_counterexample :
    get_feed_content pdC1 84600 3600 (Except.ok [itC1]) = Except.ok [] ∧
    pdC1 "DA" = some 84000 ∧ utcDay 84000 = utcDay 84600 ∧
    strip "TA" ≠ "" ∧ strip "LA" ≠ "" ∧ strip "CA" ≠ "" := by decide

/-- C1 (amended): whenever extraction completes without an uncaught
exception, the articles produced are exactly those items, in document order,
that have a parsable publication date whose UTC calendar day equals the
*local* calendar day of the run (`datetime.now().date()`), with title, link
and encoded content all non-empty after trimming. -/
theorem C1_todays_articles (parseDate : String → Option Int) (now off : Int)
    (items : List Item) (arts : List Article)
    (h : get_feed_content parseDate now off (Except.ok items) = Except.ok arts) :
    arts = specArticles parseDate (localToday now off) items :=
  collectItems_spec parseDate (localToday now off) items arts h

/-- C1 witness: with local offset 0 the item of the counterexample is
selected, and the extraction result matches the specification-side
selection. -/
theorem C1_witness :
    [Article.mk "TA" "LA" "CA"] = specArticles pdC1 (localToday 84600 0) [itC1] :=
  C1_todays_articles pdC1 84600 0 [itC1] [Article.mk "TA" "LA" "CA"] (by decide)

/-- C2: if the summarization call for an article raises, the run terminates
immediately with a failure exit status; the trace ends at that summarize
call, so the article is not delivered, the remaining articles of the feed
are not summarized, and no later feed is fetched. -/
theorem C2_summarize_failure_fatal (w : World) (done : List String) (es1 : List Event)
    (url : String) (rest : List String) (doc : List Item)
    (pre : List Article) (a : Article) (post : List Article)
    (hurls : get_feed_list w.feedsFile = Except.ok (done ++ url :: rest))
    (hconn : w.connectOk = true) (hmodel : w.modelOk = true)
    (hdone : runFeeds w done = StepRes.cont es1)
    (hfetch : w.fetch url = some (Except.ok doc))
    (hparse : get_feed_content w.parseDate w.now w.off (Except.ok doc) =
      Except.ok (pre ++ a :: post))
    (hok : ∀ b ∈ pre, (w.summarize b.content).isSome)
    (ht : w.slackToken.isSome)
    (hf : w.summarize a.content = none) :
    runMain w = (Outcome.exitFail,
      Event.connect :: Event.initModel ::
        (es1 ++ Event.fetchAttempt url ::
          (eventsOfArticles w pre ++ [Event.summarizeCall a.content]))) := by
  have ha := runArticles_fail w pre a post hok ht hf
  have h2 := runFeeds_cons_doc_halt w url rest (Except.ok doc) (pre ++ a :: post)
    Outcome.exitFail (eventsOfArticles w pre ++ [Event.summarizeCall a.content])
    hfetch hparse ha
  have h3 := runFeeds_append_cont w done (url :: rest) es1 hdone
  rw [h2] at h3
  have hne : ¬(done ++ url :: rest = []) := by simp
  simp only [runMain, hurls, hconn, hmodel, if_neg hne]
  rw [h3]
  simp [prependRes]

/-- C2 witness: in `wC2` the single article's summarization fails and the
whole run exits with failure right after the summarize call. -/
theorem C2_witness :
    runMain wC2 = (Outcome.exitFail,
      Event.connect :: Event.initModel ::
        (([] : List Event) ++ Event.fetchAttempt "u1" ::
          (eventsOfArticles wC2 [] ++ [Event.summarizeCall aC2.content]))) :=
  C2_summarize_failure_fatal wC2 [] [] "u1" [] [itC2] [] aC2 [] (by decide) rfl rfl rfl
    (by decide) (by decide) (by simp) rfl rfl

/-- C3 (counterexample): the Slack token is absent, yet the run completes
successfully without any fatal condition, because the token is only read
inside `send_slack_message` and no notification is attempted — there is no
startup-time check. -/
theorem C3_counterexample :
    wC3.slackToken = none ∧
    runMain wC3 = (Outcome.success,
      [Event.connect, Event.initModel, Event.fetchAttempt "u"]) := by decide

/-- C3 (amended): the delivery credential is read and checked at the start
of every `send_slack_message` call, not at startup: with the token absent,
the run proceeds through connection, model initialization, fetching and
summarization, and only becomes fatal at the first attempted notification,
whose token check is the last trace event. -/
theorem C3_token_check_per_notification (w : World) (done : List String) (es1 : List Event)
    (url : String) (rest : List String) (doc : List Item) (a : Article)
    (post : List Article) (s : String)
    (hurls : get_feed_list w.feedsFile = Except.ok (done ++ url :: rest))
    (hconn : w.connectOk = true) (hmodel : w.modelOk = true)
    (hdone : runFeeds w done = StepRes.cont es1)
    (hfetch : w.fetch url = some (Except.ok doc))
    (hparse : get_feed_content w.parseDate w.now w.off (Except.ok doc) =
      Except.ok (a :: post))
    (hs : w.summarize a.content = some s)
    (ht : w.slackToken = none) :
    runMain w = (Outcome.exitFail,
      Event.connect :: Event.initModel ::
        (es1 ++ Event.fetchAttempt url ::
          [Event.summarizeCall a.content, Event.tokenCheck])) := by
  have ha : runArticles w (a :: post) =
      StepRes.halt Outcome.exitFail [Event.summarizeCall a.content, Event.tokenCheck] := by
    simp [runArticles, hs, ht]
  have h2 := runFeeds_cons_doc_halt w url rest (Except.ok doc) (a :: post) Outcome.exitFail
    [Event.summarizeCall a.content, Event.tokenCheck] hfetch hparse ha
  have h3 := runFeeds_append_cont w done (url :: rest) es1 hdone
  rw [h2] at h3
  have hne : ¬(done ++ url :: rest = []) := by simp
  simp only [runMain, hurls, hconn, hmodel, if_neg hne]
  rw [h3]
  simp [prependRes]

/-- C3 witness: in `wC3b` the token is absent and the run dies at the first
notification attempt, right after the token check. -/
theorem C3_witness :
    runMain wC3b = (Outcome.exitFail,
      Event.connect :: Event.initModel ::
        (([] : List Event) ++ Event.fetchAttempt "u1" ::
          [Event.summarizeCall aC2.content, Event.tokenCheck])) :=
  C3_token_check_per_notification wC3b [] [] "u1" [] [itC2] aC2 [] "S1" (by decide) rfl rfl
    rfl (by decide) (by decide) (by decide) rfl

/-- C4 (code evaluated at the failing input): an item dated today whose
`content:encoded` element is present but empty makes the extraction raise
(`content_elem.text` is `None`, so `.strip()` raises `AttributeError`,
which nothing catches), and the whole run dies, instead of the field read
falling back to the empty string. -/
theorem C4_empty_content_element_crashes :
    processItem pdC4 (localToday 0 0) itC4 = Except.error () ∧
    get_feed_content pdC4 0 0 (Except.ok [itC4]) = Except.error () ∧
    runMain wC4 = (Outcome.crash,
      [Event.connect, Event.initModel, Event.fetchAttempt "u"]) := by decide

/-- C5: a transport-level fetch failure is feed-local: the fetch returns a
failure value (`none`) rather than raising, the orchestrator merely records
the attempt and moves on, and the rest of the run is exactly the run of the
remaining feeds, so every later fetch attempt still happens. -/
theorem C5_fetch_failure_feed_local (w : World) (url : String) (rest : List String)
    (hf : w.fetch url = none) :
    runFeeds w (url :: rest) = prependRes [Event.fetchAttempt url] (runFeeds w rest) ∧
    ∀ u : String, Event.fetchAttempt u ∈ resEvents (runFeeds w rest) →
      Event.fetchAttempt u ∈ resEvents (runFeeds w (url :: rest)) := by
  refine ⟨runFeeds_cons_none w url rest hf, ?_⟩
  intro u hu
  rw [runFeeds_cons_none w url rest hf, resEvents_prependRes]
  exact List.mem_append_right _ hu

/-- C5 witness: in `wC5` the first feed's fetch fails and the second feed is
still fetched. -/
theorem C5_witness :
    runFeeds wC5 ["a", "b"] =
      StepRes.cont [Event.fetchAttempt "a", Event.fetchAttempt "b"] := by
  have h := (C5_fetch_failure_feed_local wC5 "a" ["b"] rfl).1
  rw [h]
  decide

/-- C6: a document that fails XML parsing yields the empty article sequence
(`get_feed_content` returns `[]` after logging), no process-fatal condition
arises, and the run continues with the next feed exactly as it would have. -/
theorem C6_parse_failure_feed_local (w : World) (pd : String → Option Int) (n o : Int)
    (url : String) (rest : List String)
    (hf : w.fetch url = some (Except.error ())) :
    get_feed_content pd n o (Except.error ()) = Except.ok [] ∧
    runFeeds w (url :: rest) = prependRes [Event.fetchAttempt url] (runFeeds w rest) := by
  exact ⟨rfl, runFeeds_cons_doc w url rest (Except.error ()) [] [] hf rfl rfl⟩

/-- C6 witness: in `wC6` the only feed's document is malformed and the run
just records the fetch attempt and finishes. -/
theorem C6_witness :
    runFeeds wC6 ["a"] = StepRes.cont [Event.fetchAttempt "a"] := by
  have h := (C6_parse_failure_feed_local wC6 wC6.parseDate wC6.now wC6.off "a" [] rfl).2
  rw [h]
  decide

/-- C7: articles are processed one at a time in parser order, each
triggering exactly one summarize call followed by exactly one notify call
before the next article (the trace is the concatenation of per-article
triples); and in the two-URL scenario (URL1: one today item with all fields
populated plus one yesterday item; URL2: fetch fails) exactly one
summarize+notify pair is issued in total. -/
theorem C7_one_pair_per_article (w : World) (arts : List Article)
    (hok : ∀ a ∈ arts, (w.summarize a.content).isSome) (ht : w.slackToken.isSome) :
    runArticles w arts = StepRes.cont (eventsOfArticles w arts) ∧
    runMain wC7 = (Outcome.success,
      [Event.connect, Event.initModel, Event.fetchAttempt "u1",
       Event.summarizeCall "B1", Event.tokenCheck, Event.notifyCall "T1" "S1" "L1",
       Event.fetchAttempt "u2"]) :=
  ⟨runArticles_ok w arts hok ht, by decide⟩

/-- C7 witness: the per-article trace shape instantiated in the scenario
world on the extracted article. -/
theorem C7_witness :
    runArticles wC7 [aC7] = StepRes.cont (eventsOfArticles wC7 [aC7]) :=
  (C7_one_pair_per_article wC7 [aC7] (by decide) (by decide)).1

/-- C8: loading the feed sources is fatal exactly when the configuration
source is absent; a present source always loads (never fatal), and when it
has no usable entries the run terminates normally having done nothing. -/
theorem C8_absent_config_fatal_empty_ok (w : World) (lines : List String)
    (hfile : w.feedsFile = some lines)
    (hblank : lines.filter (fun l => strip l != "") = []) :
    get_feed_list none = Except.error () ∧
    (∀ ls : List String, ∃ us, get_feed_list (some ls) = Except.ok us) ∧
    runMain w = (Outcome.success, []) := by
  refine ⟨rfl, fun ls => ⟨_, rfl⟩, ?_⟩
  have hl : get_feed_list w.feedsFile = Except.ok [] := by
    simp [get_feed_list, hfile, hblank]
  simp [runMain, hl]

/-- C8 witness: a `feeds.txt` of blank lines ends the run successfully with
an empty trace. -/
theorem C8_witness : runMain wC8 = (Outcome.success, []) :=
  (C8_absent_config_fatal_empty_ok wC8 ["", "  "] rfl (by decide)).2.2

/-- C9: the feed list is exactly the non-blank lines of the source, trimmed,
in order (stated via `filterMap`, which keeps duplicates); and a completed
run performs one fetch attempt per listed URL, duplicates included, in the
same order. -/
theorem C9_trimmed_lines_no_dedup (w : World) (urls : List String) (es : List Event)
    (hrun : runFeeds w urls = StepRes.cont es) :
    (∀ lines : List String,
       get_feed_list (some lines) =
         Except.ok (lines.filterMap (fun l => if strip l = "" then none else some (strip l)))) ∧
    es.filter isFetchEvent = urls.map Event.fetchAttempt :=
  ⟨fun lines => by simp [get_feed_list, stripLines_filterMap],
   runFeeds_cont_fetches w urls es hrun⟩

/-- C9 witness: the duplicate URL of `wC9` is fetched twice, once per
occurrence. -/
theorem C9_witness :
    ([Event.fetchAttempt "u", Event.fetchAttempt "u"]).filter isFetchEvent =
      (["u", "u"]).map Event.fetchAttempt :=
  (C9_trimmed_lines_no_dedup wC9 ["u", "u"]
    [Event.fetchAttempt "u", Event.fetchAttempt "u"] (by decide)).2

/-- C10: when the feed list loads as empty, the run returns successfully
with an empty trace: no Ollama connection attempt, no model initialization,
no fetch and no notification. -/
theorem C10_empty_sources_no_external_calls (w : World)
    (h : get_feed_list w.feedsFile = Except.ok []) :
    runMain w = (Outcome.success, []) := by
  simp [runMain, h]

/-- C10 witness: an empty `feeds.txt` ends the run with nothing done. -/
theorem C10_witness : runMain wC10 = (Outcome.success, []) :=
  C10_empty_sources_no_external_calls wC10 (by decide)
